import Mathlib

/-!
Verification of the DreamAbode single-page application (`src/App.tsx`).

The relevant handlers of the React component are embedded shallowly:
React `useState` / `useRef` cells become fields of explicit state records,
each event handler becomes a pure function from state (plus the data the
browser or the SDK would deliver) to state, and the asynchronous audio
playback queue becomes a small labelled transition system whose events are
chunk arrivals and `onended` callbacks.
-/

namespace DreamAbode

/-- A chat message role, `'user' | 'model'` in `App.tsx`. -/
inductive Role where
  | user
  | model
deriving DecidableEq, Repr

/-- The `Message` interface of `App.tsx`: role, text, optional image. -/
structure Message where
  role : Role
  text : String
  image : Option String := none
deriving DecidableEq, Repr

/-- The `activeTab` state: its TypeScript type is `'chat' | 'generate' | 'video'`. -/
inductive Tab where
  | chat
  | generate
  | video
deriving DecidableEq, Repr

/-- The fixed model reply appended by `handleImageUpload` (line 52). -/
def uploadReplyText : String :=
  "Great! I see your room. What would you like to change? I can suggest a new style, add specific furniture, or we can just chat about it."

/-- The fixed user message text appended by `handleImageUpload` (line 51). -/
def uploadUserText : String := "I uploaded a room image."

/-- The fallback model message of `handleSendMessage`'s catch branch (line 103). -/
def fallbackText : String := "I'm having trouble connecting right now. Please try again."

/-- JavaScript `String.prototype.trim`: strip leading and trailing whitespace. -/
def jsTrim (s : String) : String :=
  ⟨((s.data.dropWhile Char.isWhitespace).reverse.dropWhile Char.isWhitespace).reverse⟩

/-- The slice of component state read and written by `handleImageUpload` and
`handleSendMessage`: the `image`, `activeTab`, `messages`, `chatInput` and
`isGenerating` `useState` cells. -/
structure ChatState where
  image : Option String
  activeTab : Tab
  messages : List Message
  chatInput : String
  isGenerating : Bool
deriving DecidableEq, Repr

/-- Embedding of `addMessage` (lines 58-60): append one message to the `messages` state. -/
def addMessage (s : ChatState) (role : Role) (text : String)
    (img : Option String := none) : ChatState :=
  { s with messages := s.messages ++ [{ role := role, text := text, image := img }] }

/-- Embedding of `handleImageUpload` (lines 43-56).  Here `file?` is `e.target.files?.[0]`;
`dataURL` is the `reader.result` the `FileReader` delivers in `onloadend`.
If a file is present the handler sets the image, switches to the
`'generate'` tab and appends the user message (with the image) and the fixed
model reply; otherwise it does nothing. -/
def handleImageUpload (s : ChatState) (file? : Option Unit) (dataURL : String) :
    ChatState :=
  match file? with
  | none => s
  | some _ =>
      let s1 := { s with image := some dataURL, activeTab := Tab.generate }
      let s2 := addMessage s1 Role.user uploadUserText (some dataURL)
      addMessage s2 Role.model uploadReplyText

/-- Outcome of the `ai.models.generateContent` call in `handleSendMessage`:
either it throws, or it returns a response whose `.text` is a string or
absent (`Option String`). -/
def ApiOutcome : Type := Except Unit (Option String)

/-- Embedding of `handleSendMessage` (lines 62-107), as a function of the prior state and
the outcome of the single `generateContent` call.  Returns the new state and
the number of API calls issued.  The guard `!chatInput.trim() && !image`
returns early; otherwise the input is cleared, the user message appended,
`isGenerating` set, the call made, the model reply (or the fallback message
on error) appended, and `isGenerating` cleared in the `finally` block. -/
def handleSendMessage (s : ChatState) (api : ApiOutcome) : ChatState × Nat :=
  if jsTrim s.chatInput = "" ∧ s.image = none then (s, 0)
  else
    let userMsg := s.chatInput
    let s1 := addMessage { s with chatInput := "" } Role.user userMsg
    let s1 := { s1 with isGenerating := true }
    match api with
    | Except.ok text? =>
        let s2 :=
          match text? with
          | some t => if t = "" then s1 else addMessage s1 Role.model t
          | none => s1
        ({ s2 with isGenerating := false }, 1)
    | Except.error _ =>
        ({ addMessage s1 Role.model fallbackText with isGenerating := false }, 1)

/-! ### Tab reachability (C9)

Every write to `activeTab` in `App.tsx`: `setActiveTab('generate')` in
`handleImageUpload` (line 50), on the tools card (line 509) and on the
second tab button (line 542); `setActiveTab('chat')` on the first tab
button (line 536).  The initial value is `'chat'` (line 25). -/

/-- The UI events that call `setActiveTab`. -/
inductive TabEvent where
  | uploadDone
  | toolsCardClick
  | chatTabClick
  | generateTabClick
deriving DecidableEq, Repr

/-- The value each `setActiveTab` call site assigns. -/
def tabStep : Tab → TabEvent → Tab
  | _, TabEvent.uploadDone => Tab.generate
  | _, TabEvent.toolsCardClick => Tab.generate
  | _, TabEvent.chatTabClick => Tab.chat
  | _, TabEvent.generateTabClick => Tab.generate

/-- Tab values reachable from the initial `'chat'` by UI events. -/
inductive ReachableTab : Tab → Prop where
  | init : ReachableTab Tab.chat
  | step {t : Tab} (e : TabEvent) : ReachableTab t → ReachableTab (tabStep t e)

end DreamAbode

namespace DreamAbode

/-- C10: if `chatInput.trim()` is empty and `image` is null, `handleSendMessage`
returns immediately: the state is unchanged and no API call is issued. -/
theorem handleSendMessage_guard (s : ChatState) (api : ApiOutcome)
    (hin : jsTrim s.chatInput = "") (himg : s.image = none) :
    handleSendMessage s api = (s, 0) := by
  unfold handleSendMessage
  simp [hin, himg]

/-- Witness for C10 at a concrete state. -/
theorem handleSendMessage_guard_witness :
    handleSendMessage
      { image := none, activeTab := Tab.chat, messages := [], chatInput := "  ",
        isGenerating := false } (Except.error ()) =
      ({ image := none, activeTab := Tab.chat, messages := [], chatInput := "  ",
         isGenerating := false }, 0) :=
  handleSendMessage_guard _ _ (by decide) rfl

/-- C6: when the `generateContent` call throws, exactly one fallback model
message is appended after the user message, the call is not retried (exactly
one API call), and `isGenerating` ends false; on any outcome of the call,
`isGenerating` ends false. -/
theorem handleSendMessage_error (s : ChatState)
    (hguard : ¬(jsTrim s.chatInput = "" ∧ s.image = none)) :
    ((handleSendMessage s (Except.error ())).1.messages =
        s.messages ++ [{ role := Role.user, text := s.chatInput, image := none },
          { role := Role.model, text := fallbackText, image := none }] ∧
      (handleSendMessage s (Except.error ())).2 = 1 ∧
      (handleSendMessage s (Except.error ())).1.isGenerating = false) ∧
    ∀ api : ApiOutcome, ¬(handleSendMessage s api).1.isGenerating := by
  constructor
  · unfold handleSendMessage
    simp [hguard, addMessage]
  · intro api
    unfold handleSendMessage
    rcases api with e | text?
    · simp [hguard, addMessage]
    · rcases text? with _ | t
      · simp [hguard, addMessage]
      · by_cases ht : t = "" <;> simp [hguard, addMessage, ht]

/-- Witness for C6 at a concrete state and the error outcome. -/
theorem handleSendMessage_error_witness :
    ((handleSendMessage
        { image := none, activeTab := Tab.chat, messages := [], chatInput := "hi",
          isGenerating := false } (Except.error ())).1.messages =
      [] ++ [{ role := Role.user, text := "hi", image := none },
        { role := Role.model, text := fallbackText, image := none }] ∧
      (handleSendMessage
        { image := none, activeTab := Tab.chat, messages := [], chatInput := "hi",
          isGenerating := false } (Except.error ())).2 = 1 ∧
      (handleSendMessage
        { image := none, activeTab := Tab.chat, messages := [], chatInput := "hi",
          isGenerating := false } (Except.error ())).1.isGenerating = false) ∧
    ∀ api : ApiOutcome,
      ¬(handleSendMessage
          { image := none, activeTab := Tab.chat, messages := [], chatInput := "hi",
            isGenerating := false } api).1.isGenerating :=
  handleSendMessage_error _ (by decide)

/-- C7: selecting a file makes `handleImageUpload` set the image to the data
URL, switch to the `'generate'` tab, and append exactly the user message
carrying the image followed by the fixed model reply; with no file selected
the state is unchanged. -/
theorem handleImageUpload_spec (s : ChatState) (dataURL : String) :
    (handleImageUpload s (some ()) dataURL =
      { s with
          image := some dataURL, activeTab := Tab.generate,
          messages := s.messages ++
            [{ role := Role.user, text := uploadUserText, image := some dataURL },
              { role := Role.model, text := uploadReplyText, image := none }] }) ∧
    handleImageUpload s none dataURL = s := by
  constructor
  · simp [handleImageUpload, addMessage]
  · rfl

/-- C9: every reachable `activeTab` value is `'chat'` or `'generate'`;
`'video'` is never assigned. -/
theorem reachableTab_ne_video (t : Tab) (h : ReachableTab t) :
    t = Tab.chat ∨ t = Tab.generate := by
  induction h with
  | init => exact Or.inl rfl
  | step e _ _ => cases e <;> simp [tabStep]

/-- Witness for C9 at a concrete reachable tab. -/
theorem reachableTab_ne_video_witness :
    Tab.chat = Tab.chat ∨ Tab.chat = Tab.generate :=
  reachableTab_ne_video Tab.chat ReachableTab.init

/-! ### The base64 coders of the audio paths (C4, C2) -/

/-- The standard base64 alphabet used by `btoa` / `atob`. -/
def b64Alphabet : List Char :=
  "ABCDEFGHIJKLMNOPQRSTUVWXYZabcdefghijklmnopqrstuvwxyz0123456789+/".toList

/-- The alphabet character for a sextet value (0..63). -/
def sextetChar (n : Nat) : Char := b64Alphabet.getD n '='

/-- The sextet value of an alphabet character (its index in the alphabet). -/
def sextetVal (c : Char) : Nat := b64Alphabet.indexOf c

/-- Embedding of the capture-path encoding `btoa(String.fromCharCode(...bytes))`
(lines 261-263): standard base64 over the byte list, with `'='` padding. -/
def btoaBytes : List Nat → List Char
  | [] => []
  | [b0] => [sextetChar (b0 / 4), sextetChar (b0 % 4 * 16), '=', '=']
  | [b0, b1] =>
      [sextetChar (b0 / 4), sextetChar (b0 % 4 * 16 + b1 / 16), sextetChar (b1 % 16 * 4), '=']
  | b0 :: b1 :: b2 :: rest =>
      sextetChar (b0 / 4) :: sextetChar (b0 % 4 * 16 + b1 / 16) ::
        sextetChar (b1 % 16 * 4 + b2 / 64) :: sextetChar (b2 % 64) :: btoaBytes rest

/-- Repack a list of sextet values (padding already stripped) into bytes. -/
def decodeSextets : List Nat → List Nat
  | s0 :: s1 :: s2 :: s3 :: rest =>
      (s0 * 4 + s1 / 16) :: (s1 % 16 * 16 + s2 / 4) :: (s2 % 4 * 64 + s3) ::
        decodeSextets rest
  | [s0, s1] => [s0 * 4 + s1 / 16]
  | [s0, s1, s2] => [s0 * 4 + s1 / 16, s1 % 16 * 16 + s2 / 4]
  | _ => []

/-- Embedding of the playback-path decoding (lines 355-360): `atob` on the
base64 text followed by `charCodeAt` per character.  On the valid encodings
produced by `btoaBytes`, `atob` strips the trailing `'='` padding and
repacks the sextets into bytes. -/
def atobBytes (cs : List Char) : List Nat :=
  decodeSextets ((cs.takeWhile (fun c => c != '=')).map sextetVal)

theorem sextetVal_sextetChar : ∀ n, n < 64 → sextetVal (sextetChar n) = n := by decide

theorem sextetChar_bne_pad : ∀ n, n < 64 → (sextetChar n != '=') = true := by decide

theorem atob_btoa_aux :
    ∀ bs : List Nat, (∀ b ∈ bs, b < 256) → atobBytes (btoaBytes bs) = bs
  | [] => fun _ => rfl
  | [b0] => fun h => by
      have hb0 : b0 < 256 := h b0 (by simp)
      have h1 : b0 / 4 < 64 := by omega
      have h2 : b0 % 4 * 16 < 64 := by omega
      simp only [btoaBytes, atobBytes, List.takeWhile_cons,
        sextetChar_bne_pad _ h1, sextetChar_bne_pad _ h2]
      simp only [List.takeWhile, List.map, decodeSextets,
        sextetVal_sextetChar _ h1, sextetVal_sextetChar _ h2]
      simp
      omega
  | [b0, b1] => fun h => by
      have hb0 : b0 < 256 := h b0 (by simp)
      have hb1 : b1 < 256 := h b1 (by simp)
      have h1 : b0 / 4 < 64 := by omega
      have h2 : b0 % 4 * 16 + b1 / 16 < 64 := by omega
      have h3 : b1 % 16 * 4 < 64 := by omega
      simp only [btoaBytes, atobBytes, List.takeWhile_cons,
        sextetChar_bne_pad _ h1, sextetChar_bne_pad _ h2, sextetChar_bne_pad _ h3]
      simp only [List.takeWhile, List.map, decodeSextets,
        sextetVal_sextetChar _ h1, sextetVal_sextetChar _ h2, sextetVal_sextetChar _ h3]
      simp
      omega
  | b0 :: b1 :: b2 :: rest => fun h => by
      have hb0 : b0 < 256 := h b0 (by simp)
      have hb1 : b1 < 256 := h b1 (by simp)
      have hb2 : b2 < 256 := h b2 (by simp)
      have h1 : b0 / 4 < 64 := by omega
      have h2 : b0 % 4 * 16 + b1 / 16 < 64 := by omega
      have h3 : b1 % 16 * 4 + b2 / 64 < 64 := by omega
      have h4 : b2 % 64 < 64 := by omega
      have ih := atob_btoa_aux rest (fun b hb => h b (by simp [hb]))
      simp only [btoaBytes, atobBytes, List.takeWhile_cons,
        sextetChar_bne_pad _ h1, sextetChar_bne_pad _ h2,
        sextetChar_bne_pad _ h3, sextetChar_bne_pad _ h4] at ih ⊢
      simp only [List.map, decodeSextets,
        sextetVal_sextetChar _ h1, sextetVal_sextetChar _ h2,
        sextetVal_sextetChar _ h3, sextetVal_sextetChar _ h4]
      simp [ih]
      omega

/-- C4: the capture-path encoding and playback-path decoding are mutually
inverse: decoding the encoding of any byte array returns it unchanged. -/
theorem base64_roundtrip (bs : List Nat) (h : ∀ b ∈ bs, b < 256) :
    atobBytes (btoaBytes bs) = bs :=
  atob_btoa_aux bs h

/-- Witness for C4 on a concrete byte array. -/
theorem base64_roundtrip_witness :
    atobBytes (btoaBytes [0, 127, 255, 7, 66]) = [0, 127, 255, 7, 66] :=
  base64_roundtrip [0, 127, 255, 7, 66] (by decide)

/-- Little-endian signed 16-bit read, `dataView.getInt16(2*i, true)` (line 374). -/
def int16LE (lo hi : Nat) : Int :=
  if lo + 256 * hi < 32768 then (lo + 256 * hi : Int)
  else (lo + 256 * hi : Int) - 65536

/-- The float samples `processAudioQueue` builds from the decoded bytes
(lines 370-376): sample `i` is `getInt16(2*i, little endian) / 32768`. -/
def chunkSamples (bytes : List Nat) : List ℚ :=
  (List.range (bytes.length / 2)).map
    (fun i => (int16LE (bytes.getD (2 * i) 0) (bytes.getD (2 * i + 1) 0) : ℚ) / 32768)

/-- The playback `AudioBuffer` as created on line 378: one channel at a
hard-coded 24000 Hz, holding the converted samples. -/
structure PlaybackBuffer where
  numChannels : Nat
  sampleRate : Nat
  samples : List ℚ

/-- Embedding of the decode-and-build part of `processAudioQueue`
(lines 352-379): base64-decode the chunk, reinterpret byte pairs as
little-endian int16, scale by 1/32768, and wrap in a 1-channel 24000 Hz
buffer. -/
def buildPlaybackBuffer (chunk : List Char) : PlaybackBuffer :=
  { numChannels := 1, sampleRate := 24000, samples := chunkSamples (atobBytes chunk) }

theorem int16LE_bounds (lo hi : Nat) (hlo : lo < 256) (hhi : hi < 256) :
    -32768 ≤ int16LE lo hi ∧ int16LE lo hi < 32768 := by
  unfold int16LE
  split <;> omega

/-- C2: for the buffer built from a received chunk (the base64 encoding of
an even-length byte list `bs`; an odd length would make the
`Float32Array` constructor of line 370 throw), the metadata is 1 channel at
24000 Hz and sample `i` equals `getInt16(2*i, LE) / 32768`, which lies in
`[-1, 1)`. -/
theorem processAudioQueue_samples (bs : List Nat) (heven : bs.length % 2 = 0)
    (h : ∀ b ∈ bs, b < 256) :
    (buildPlaybackBuffer (btoaBytes bs)).numChannels = 1 ∧
    (buildPlaybackBuffer (btoaBytes bs)).sampleRate = 24000 ∧
    (buildPlaybackBuffer (btoaBytes bs)).samples.length = bs.length / 2 ∧
    ∀ i, i < bs.length / 2 →
      (buildPlaybackBuffer (btoaBytes bs)).samples.getD i 0 =
        (int16LE (bs.getD (2 * i) 0) (bs.getD (2 * i + 1) 0) : ℚ) / 32768 ∧
      -1 ≤ (buildPlaybackBuffer (btoaBytes bs)).samples.getD i 0 ∧
      (buildPlaybackBuffer (btoaBytes bs)).samples.getD i 0 < 1 := by
  have hdec : atobBytes (btoaBytes bs) = bs := atob_btoa_aux bs h
  have hsamp : (buildPlaybackBuffer (btoaBytes bs)).samples = chunkSamples bs := by
    simp [buildPlaybackBuffer, hdec]
  refine ⟨rfl, rfl, ?_, ?_⟩
  · rw [hsamp]
    simp [chunkSamples]
  intro i hi
  rw [hsamp]
  have hget : (chunkSamples bs).getD i 0 =
      (int16LE (bs.getD (2 * i) 0) (bs.getD (2 * i + 1) 0) : ℚ) / 32768 := by
    unfold chunkSamples
    rw [List.getD_eq_getElem _ _ (by simpa using hi)]
    simp
  have hlo : bs.getD (2 * i) 0 < 256 := by
    rw [List.getD_eq_getElem _ _ (by omega)]
    exact h _ (List.getElem_mem _)
  have hhi : bs.getD (2 * i + 1) 0 < 256 := by
    rw [List.getD_eq_getElem _ _ (by omega)]
    exact h _ (List.getElem_mem _)
  obtain ⟨hb1, hb2⟩ := int16LE_bounds _ _ hlo hhi
  have hc1 : (-32768 : ℚ) ≤ (int16LE (bs.getD (2 * i) 0) (bs.getD (2 * i + 1) 0) : ℚ) := by
    exact_mod_cast hb1
  have hc2 : (int16LE (bs.getD (2 * i) 0) (bs.getD (2 * i + 1) 0) : ℚ) < 32768 := by
    exact_mod_cast hb2
  refine ⟨hget, ?_, ?_⟩
  · rw [hget, le_div_iff₀ (by norm_num)]
    linarith
  · rw [hget, div_lt_one (by norm_num)]
    exact hc2


/-- Witness for C2 on a concrete two-byte chunk (the int16 value -32768). -/
theorem processAudioQueue_samples_witness :
    (buildPlaybackBuffer (btoaBytes [0, 128])).numChannels = 1 ∧
    (buildPlaybackBuffer (btoaBytes [0, 128])).sampleRate = 24000 ∧
    (buildPlaybackBuffer (btoaBytes [0, 128])).samples.getD 0 0 =
      (int16LE ([0, 128].getD 0 0) ([0, 128].getD 1 0) : ℚ) / 32768 ∧
    -1 ≤ (buildPlaybackBuffer (btoaBytes [0, 128])).samples.getD 0 0 ∧
    (buildPlaybackBuffer (btoaBytes [0, 128])).samples.getD 0 0 < 1 := by
  have h := processAudioQueue_samples [0, 128] (by decide) (by decide)
  obtain ⟨h1, h2, _, h4⟩ := h
  have h5 := h4 0 (by decide)
  exact ⟨h1, h2, h5.1, h5.2.1, h5.2.2⟩

/-! ### Microphone capture conversion (C3) -/

/-- Clamp of line 256: `Math.max(-1, Math.min(1, inputData[i]))`. -/
def clampSample (x : ℚ) : ℚ := max (-1) (min 1 x)

/-- Truncation toward zero, as JavaScript does when storing a float into an
`Int16Array` element. -/
def truncToward0 (q : ℚ) : Int := if q < 0 then ⌈q⌉ else ⌊q⌋

/-- Wrap an integer into the signed 16-bit range, the final step of the
JavaScript `ToInt16` conversion performed by the `Int16Array` store. -/
def wrapInt16 (n : Int) : Int :=
  let m := n % 65536
  if m < 32768 then m else m - 65536

/-- Embedding of line 257: `pcmData[i] = s < 0 ? s * 0x8000 : s * 0x7FFF`
with `s` the clamped sample, stored into an `Int16Array` element. -/
def floatToInt16 (x : ℚ) : Int :=
  let s := clampSample x
  wrapInt16 (truncToward0 (if s < 0 then s * 32768 else s * 32767))

/-- The `AudioContext` options of lines 217-219. -/
structure AudioCtxOptions where
  sampleRate : Nat

/-- The `getUserMedia` audio constraints of lines 222-227. -/
structure MicConstraints where
  channelCount : Nat
  sampleRate : Nat

/-- Embedding of the capture `AudioContext` construction (lines 217-219). -/
def captureCtxOptions : AudioCtxOptions := { sampleRate := 16000 }

/-- Embedding of the `getUserMedia` request (lines 222-227). -/
def micConstraints : MicConstraints := { channelCount := 1, sampleRate := 16000 }

theorem truncToward0_bounds (q : ℚ) (h1 : -32768 ≤ q) (h2 : q ≤ 32767) :
    -32768 ≤ truncToward0 q ∧ truncToward0 q ≤ 32767 := by
  unfold truncToward0
  split
  case isTrue hq =>
    constructor
    · have : ((-32768 : ℤ) : ℚ) ≤ q := by push_cast; linarith
      have := Int.ceil_le_ceil this
      simpa using this
    · have : q ≤ ((32767 : ℤ) : ℚ) := by push_cast; linarith
      have := Int.ceil_le_ceil this
      simpa using this
  case isFalse hq =>
    constructor
    · have : ((-32768 : ℤ) : ℚ) ≤ q := by push_cast; linarith
      have := Int.floor_le_floor this
      simpa using this
    · have : q ≤ ((32767 : ℤ) : ℚ) := by push_cast; linarith
      have := Int.floor_le_floor this
      simpa using this

theorem wrapInt16_eq_self (n : Int) (h1 : -32768 ≤ n) (h2 : n ≤ 32767) :
    wrapInt16 n = n := by
  unfold wrapInt16
  dsimp only
  omega

/-- C3: each microphone sample is clamped to `[-1, 1]`, scaled by `0x8000`
when negative and `0x7FFF` otherwise, and the resulting 16-bit value lies in
`[-32768, 32767]` (the `Int16Array` store wraps nothing); the capture
`AudioContext` and the `getUserMedia` request hard-code 16000 Hz mono. -/
theorem onaudioprocess_pcm (x : ℚ) :
    floatToInt16 x =
      truncToward0
        (if clampSample x < 0 then clampSample x * 32768 else clampSample x * 32767) ∧
    -32768 ≤ floatToInt16 x ∧ floatToInt16 x ≤ 32767 ∧
    captureCtxOptions.sampleRate = 16000 ∧
    micConstraints.channelCount = 1 ∧ micConstraints.sampleRate = 16000 := by
  have hs1 : -1 ≤ clampSample x := le_max_left _ _
  have hs2 : clampSample x ≤ 1 := max_le (by norm_num) (min_le_left _ _)
  have hv1 : -32768 ≤ (if clampSample x < 0 then clampSample x * 32768
      else clampSample x * 32767) := by
    split
    · nlinarith
    · nlinarith
  have hv2 : (if clampSample x < 0 then clampSample x * 32768
      else clampSample x * 32767) ≤ 32767 := by
    split
    case isTrue h => nlinarith
    case isFalse h => nlinarith
  obtain ⟨ht1, ht2⟩ := truncToward0_bounds _ hv1 hv2
  have heq : floatToInt16 x =
      truncToward0
        (if clampSample x < 0 then clampSample x * 32768 else clampSample x * 32767) := by
    unfold floatToInt16
    exact wrapInt16_eq_self _ ht1 ht2
  refine ⟨heq, ?_, ?_, rfl, rfl, rfl⟩
  · rw [heq]; exact ht1
  · rw [heq]; exact ht2


/-! ### Live-session teardown (C5) -/

/-- The refs `stopLiveSession` touches: `isLiveActive` state plus the
`processorRef`, `mediaStreamRef` (a stream is its list of tracks),
`audioContextRef` and `liveSessionRef` ref cells.  Objects are identified by
numeric handles. -/
structure LiveRefs where
  isLiveActive : Bool
  processorRef : Option Nat
  mediaStreamRef : Option (List Nat)
  audioContextRef : Option Nat
  liveSessionRef : Option Nat
deriving DecidableEq, Repr

/-- Side effects `stopLiveSession` performs on browser objects. -/
inductive TeardownAction where
  | disconnectProcessor (p : Nat)
  | stopTrack (t : Nat)
  | closeContext (c : Nat)
deriving DecidableEq, Repr

/-- Embedding of `stopLiveSession` (lines 311-333): clear `isLiveActive`,
disconnect the processor if present, stop every track of the stream if
present, close the audio context if present, and null all four refs.  The
returned list records the effects in program order. -/
def stopLiveSession (s : LiveRefs) : LiveRefs × List TeardownAction :=
  let acts1 : List TeardownAction :=
    match s.processorRef with
    | some p => [TeardownAction.disconnectProcessor p]
    | none => []
  let acts2 : List TeardownAction :=
    match s.mediaStreamRef with
    | some tracks => tracks.map TeardownAction.stopTrack
    | none => []
  let acts3 : List TeardownAction :=
    match s.audioContextRef with
    | some c => [TeardownAction.closeContext c]
    | none => []
  ({ isLiveActive := false, processorRef := none, mediaStreamRef := none,
     audioContextRef := none, liveSessionRef := none },
   acts1 ++ acts2 ++ acts3)

/-- C5: after `stopLiveSession`, regardless of the prior state,
`isLiveActive` is false and all four refs are null; any processor that
existed was disconnected, every track of any captured stream was stopped,
and any audio context was closed. -/
theorem stopLiveSession_spec (s : LiveRefs) :
    (stopLiveSession s).1.isLiveActive = false ∧
    (stopLiveSession s).1.processorRef = none ∧
    (stopLiveSession s).1.mediaStreamRef = none ∧
    (stopLiveSession s).1.audioContextRef = none ∧
    (stopLiveSession s).1.liveSessionRef = none ∧
    (∀ p, s.processorRef = some p →
      TeardownAction.disconnectProcessor p ∈ (stopLiveSession s).2) ∧
    (∀ tracks t, s.mediaStreamRef = some tracks → t ∈ tracks →
      TeardownAction.stopTrack t ∈ (stopLiveSession s).2) ∧
    (∀ c, s.audioContextRef = some c →
      TeardownAction.closeContext c ∈ (stopLiveSession s).2) := by
  refine ⟨rfl, rfl, rfl, rfl, rfl, ?_, ?_, ?_⟩
  · intro p hp
    simp [stopLiveSession, hp]
  · intro tracks t htr ht
    simp [stopLiveSession, htr, ht]
  · intro c hc
    simp [stopLiveSession, hc]

/-- Witness for C5 at a concrete pre-state. -/
theorem stopLiveSession_spec_witness :
    ((stopLiveSession
        { isLiveActive := true, processorRef := some 1, mediaStreamRef := some [4, 5],
          audioContextRef := some 9, liveSessionRef := some 3 }).1.isLiveActive = false ∧
      (stopLiveSession
        { isLiveActive := true, processorRef := some 1, mediaStreamRef := some [4, 5],
          audioContextRef := some 9, liveSessionRef := some 3 }).1.processorRef = none) ∧
    TeardownAction.disconnectProcessor 1 ∈
      (stopLiveSession
        { isLiveActive := true, processorRef := some 1, mediaStreamRef := some [4, 5],
          audioContextRef := some 9, liveSessionRef := some 3 }).2 ∧
    TeardownAction.stopTrack 5 ∈
      (stopLiveSession
        { isLiveActive := true, processorRef := some 1, mediaStreamRef := some [4, 5],
          audioContextRef := some 9, liveSessionRef := some 3 }).2 ∧
    TeardownAction.closeContext 9 ∈
      (stopLiveSession
        { isLiveActive := true, processorRef := some 1, mediaStreamRef := some [4, 5],
          audioContextRef := some 9, liveSessionRef := some 3 }).2 := by
  have h := stopLiveSession_spec
    { isLiveActive := true, processorRef := some 1, mediaStreamRef := some [4, 5],
      audioContextRef := some 9, liveSessionRef := some 3 }
  exact ⟨⟨h.1, h.2.1⟩, h.2.2.2.2.2.1 1 rfl,
    h.2.2.2.2.2.2.1 [4, 5] 5 rfl (by decide), h.2.2.2.2.2.2.2 9 rfl⟩


/-! ### The audio playback queue (C1, C8)

State of the playback machinery: the `audioQueueRef` array, the
`isPlayingRef` flag, the buffer sources started but not yet ended, and the
sources whose `onended` already fired (in order).  Events are chunk
arrivals (`playAudioChunk` calls from `onmessage`) and `onended` firings. -/

structure PlayerState where
  queue : List String
  isPlaying : Bool
  active : List String
  played : List String
deriving DecidableEq, Repr

/-- Embedding of `processAudioQueue` (lines 343-397) unrolled over the
queue: an empty queue clears `isPlayingRef`; otherwise `isPlayingRef` is
set, the head chunk is shifted off and, when the audio context exists and
the chunk decodes (`ctx && dec c`), a source for it is started
(appended to `active`); on failure the catch branch recurses. -/
def paqAux (ctx : Bool) (dec : String → Bool) :
    List String → List String → List String → PlayerState
  | [], act, pl => { queue := [], isPlaying := false, active := act, played := pl }
  | c :: rest, act, pl =>
      if ctx && dec c then
        { queue := rest, isPlaying := true, active := act ++ [c], played := pl }
      else
        paqAux ctx dec rest act pl

/-- One invocation of `processAudioQueue` on the current state. -/
def processAudioQueue (ctx : Bool) (dec : String → Bool) (s : PlayerState) :
    PlayerState :=
  paqAux ctx dec s.queue s.active s.played

/-- Embedding of `playAudioChunk` (lines 335-341): push the chunk, and kick
off `processAudioQueue` only when `isPlayingRef` is clear. -/
def playAudioChunk (ctx : Bool) (dec : String → Bool) (s : PlayerState)
    (b : String) : PlayerState :=
  let s1 : PlayerState := { s with queue := s.queue ++ [b] }
  if s.isPlaying then s1 else processAudioQueue ctx dec s1

/-- The `source.onended` callback (lines 386-388): the oldest active source
finishes (it moves to `played`) and `processAudioQueue` runs again. -/
def sourceEnded (ctx : Bool) (dec : String → Bool) (s : PlayerState) :
    PlayerState :=
  match s.active with
  | [] => s
  | c :: restA =>
      processAudioQueue ctx dec
        { s with active := restA, played := s.played ++ [c] }

/-- External events driving the playback machinery. -/
inductive PlayerEvent where
  | arrive (b : String)
  | ended
deriving DecidableEq, Repr

def playerStep (ctx : Bool) (dec : String → Bool) (s : PlayerState) :
    PlayerEvent → PlayerState
  | PlayerEvent.arrive b => playAudioChunk ctx dec s b
  | PlayerEvent.ended => sourceEnded ctx dec s

def runPlayer (ctx : Bool) (dec : String → Bool) (s : PlayerState) :
    List PlayerEvent → PlayerState
  | [] => s
  | e :: es => runPlayer ctx dec (playerStep ctx dec s e) es

/-- The initial ref values (lines 33-34): empty queue, not playing. -/
def initialPlayer : PlayerState :=
  { queue := [], isPlaying := false, active := [], played := [] }

/-- The chunks delivered by a trace, in arrival order. -/
def arrivalsOf : List PlayerEvent → List String
  | [] => []
  | PlayerEvent.arrive b :: es => b :: arrivalsOf es
  | PlayerEvent.ended :: es => arrivalsOf es

/-- Invariant of the playback machinery relative to the chunks that have
arrived so far: completed, active and queued chunks form (in this order) a
subsequence of the arrivals, at most one source is active, and a clear
`isPlayingRef` means no active source and an empty queue. -/
def PlayerInv (s : PlayerState) (arr : List String) : Prop :=
  List.Sublist (s.played ++ s.active ++ s.queue) arr ∧
  s.active.length ≤ 1 ∧
  (s.isPlaying = false → s.active = [] ∧ s.queue = [])

theorem paqAux_spec (ctx : Bool) (dec : String → Bool) :
    ∀ (q act pl : List String),
      List.Sublist
        ((paqAux ctx dec q act pl).played ++ (paqAux ctx dec q act pl).active ++
          (paqAux ctx dec q act pl).queue) (pl ++ act ++ q) ∧
      (paqAux ctx dec q act pl).active.length ≤ act.length + 1 ∧
      ((paqAux ctx dec q act pl).isPlaying = false →
        (paqAux ctx dec q act pl).active = act ∧ (paqAux ctx dec q act pl).queue = [])
  | [], act, pl => by
      refine ⟨?_, by simp [paqAux], by simp [paqAux]⟩
      simp [paqAux]
  | c :: rest, act, pl => by
      by_cases hc : (ctx && dec c) = true
      · refine ⟨?_, ?_, ?_⟩ <;> simp [paqAux, hc]
      · have ih := paqAux_spec ctx dec rest act pl
        have hstep : List.Sublist (pl ++ act ++ rest) (pl ++ act ++ (c :: rest)) :=
          List.Sublist.append_left (List.sublist_cons_self _ _) _
        refine ⟨?_, ?_, ?_⟩ <;> simp only [paqAux, hc, if_false, Bool.false_eq_true]
        · exact ih.1.trans hstep
        · exact ih.2.1
        · exact ih.2.2

theorem playerStep_inv (ctx : Bool) (dec : String → Bool) (s : PlayerState)
    (arr : List String) (e : PlayerEvent) (h : PlayerInv s arr) :
    PlayerInv (playerStep ctx dec s e) (arr ++ arrivalsOf [e]) := by
  obtain ⟨hsub, hlen, hidle⟩ := h
  cases e with
  | arrive b =>
      simp only [playerStep, playAudioChunk, arrivalsOf]
      by_cases hp : s.isPlaying
      · simp only [hp, if_true]
        refine ⟨?_, hlen, by simp [hp]⟩
        have : (s.played ++ s.active ++ (s.queue ++ [b])) =
            (s.played ++ s.active ++ s.queue) ++ [b] := by simp
        rw [this]
        exact hsub.append (List.Sublist.refl [b])
      · obtain ⟨hact, hq⟩ := hidle (by simpa using hp)
        have hp2 : s.isPlaying = false := by simpa using hp
        simp only [hp2, Bool.false_eq_true, if_false]
        have hspec := paqAux_spec ctx dec (s.queue ++ [b]) s.active s.played
        simp only [processAudioQueue]
        refine ⟨?_, ?_, ?_⟩
        · refine hspec.1.trans ?_
          have : s.played ++ s.active ++ (s.queue ++ [b]) =
              (s.played ++ s.active ++ s.queue) ++ [b] := by simp
          rw [this]
          exact hsub.append (List.Sublist.refl [b])
        · have h2 := hspec.2.1
          have h3 : s.active.length = 0 := by rw [hact]; rfl
          omega
        · exact fun hfalse => ⟨by rw [(hspec.2.2 hfalse).1, hact], (hspec.2.2 hfalse).2⟩
  | ended =>
      simp only [playerStep, sourceEnded, arrivalsOf, List.append_nil]
      cases hA : s.active with
      | nil => exact ⟨by simpa [hA] using hsub, by simp [hA], fun h => ⟨hA, (hidle h).2⟩⟩
      | cons c restA =>
          have hrest : restA = [] := by
            have h1 := hlen
            rw [hA] at h1
            simp only [List.length_cons] at h1
            exact List.length_eq_zero.mp (by omega)
          subst hrest
          have hspec := paqAux_spec ctx dec s.queue [] (s.played ++ [c])
          simp only [processAudioQueue]
          refine ⟨?_, ?_, ?_⟩
          · refine hspec.1.trans ?_
            have : (s.played ++ [c]) ++ [] ++ s.queue =
                s.played ++ (c :: []) ++ s.queue := by simp
            rw [this, ← hA]
            exact hsub
          · have := hspec.2.1
            simpa using this
          · intro hfalse
            exact ⟨(hspec.2.2 hfalse).1, (hspec.2.2 hfalse).2⟩

theorem arrivalsOf_append (es fs : List PlayerEvent) :
    arrivalsOf (es ++ fs) = arrivalsOf es ++ arrivalsOf fs := by
  induction es with
  | nil => rfl
  | cons e es ih => cases e <;> simp [arrivalsOf, ih]

theorem runPlayer_inv (ctx : Bool) (dec : String → Bool) :
    ∀ (es : List PlayerEvent) (s : PlayerState) (arr : List String),
      PlayerInv s arr → PlayerInv (runPlayer ctx dec s es) (arr ++ arrivalsOf es)
  | [], s, arr, h => by simpa [runPlayer, arrivalsOf] using h
  | e :: es, s, arr, h => by
      have h1 := playerStep_inv ctx dec s arr e h
      have h2 := runPlayer_inv ctx dec es (playerStep ctx dec s e)
        (arr ++ arrivalsOf [e]) h1
      simp only [runPlayer]
      have : arr ++ arrivalsOf [e] ++ arrivalsOf es = arr ++ arrivalsOf (e :: es) := by
        cases e <;> simp [arrivalsOf]
      rwa [this] at h2

/-- C1: along any trace of chunk arrivals and `onended` firings, the
completed, active and queued chunks form (in this order) a subsequence of
the arrivals, so chunks replay strictly in FIFO arrival order; at most one
buffer source is active at any time; a clear `isPlayingRef` means nothing
active and nothing queued; and `processAudioQueue` on an empty queue sets
`isPlayingRef` to false. -/
theorem playback_fifo (ctx : Bool) (dec : String → Bool) (es : List PlayerEvent) :
    List.Sublist
      ((runPlayer ctx dec initialPlayer es).played ++
        (runPlayer ctx dec initialPlayer es).active ++
        (runPlayer ctx dec initialPlayer es).queue) (arrivalsOf es) ∧
    (runPlayer ctx dec initialPlayer es).active.length ≤ 1 ∧
    ((runPlayer ctx dec initialPlayer es).isPlaying = false →
      (runPlayer ctx dec initialPlayer es).active = [] ∧
      (runPlayer ctx dec initialPlayer es).queue = []) ∧
    ∀ s : PlayerState, s.queue = [] →
      (processAudioQueue ctx dec s).isPlaying = false := by
  have h0 : PlayerInv initialPlayer [] := by
    refine ⟨by simp [initialPlayer], by simp [initialPlayer], by simp [initialPlayer]⟩
  have h := runPlayer_inv ctx dec es initialPlayer [] h0
  simp only [List.nil_append] at h
  exact ⟨h.1, h.2.1, h.2.2, fun s hs => by simp [processAudioQueue, hs, paqAux]⟩

/-- Witness for C1 on a concrete trace. -/
theorem playback_fifo_witness :
    List.Sublist
      ((runPlayer true (fun _ => true) initialPlayer
        [PlayerEvent.arrive "a", PlayerEvent.arrive "b", PlayerEvent.ended,
          PlayerEvent.ended]).played ++
      (runPlayer true (fun _ => true) initialPlayer
        [PlayerEvent.arrive "a", PlayerEvent.arrive "b", PlayerEvent.ended,
          PlayerEvent.ended]).active ++
      (runPlayer true (fun _ => true) initialPlayer
        [PlayerEvent.arrive "a", PlayerEvent.arrive "b", PlayerEvent.ended,
          PlayerEvent.ended]).queue)
      (arrivalsOf [PlayerEvent.arrive "a", PlayerEvent.arrive "b", PlayerEvent.ended,
        PlayerEvent.ended]) ∧
    (processAudioQueue true (fun _ => true) initialPlayer).isPlaying = false := by
  have h := playback_fifo true (fun _ => true)
    [PlayerEvent.arrive "a", PlayerEvent.arrive "b", PlayerEvent.ended,
      PlayerEvent.ended]
  exact ⟨h.1, h.2.2.2 initialPlayer rfl⟩

/-- A live server message, as `onmessage` reads it: the
`serverContent?.interrupted` flag and the first part audio payload
`serverContent?.modelTurn?.parts?.[0]?.inlineData?.data`. -/
structure ServerMessage where
  interrupted : Bool
  audioData : Option String
deriving DecidableEq, Repr

/-- Embedding of the `onmessage` callback (lines 277-291): on interruption,
clear the queue and `isPlayingRef` and return; otherwise enqueue and play
any audio payload. -/
def onLiveMessage (ctx : Bool) (dec : String → Bool) (s : PlayerState)
    (m : ServerMessage) : PlayerState :=
  if m.interrupted then { s with queue := [], isPlaying := false }
  else
    match m.audioData with
    | some d => playAudioChunk ctx dec s d
    | none => s

/-- C8: an interrupted server message empties the playback queue, clears
`isPlayingRef`, and returns before playing anything: the active and played
sources are untouched and any audio payload in the message is ignored. -/
theorem onmessage_interrupted (ctx : Bool) (dec : String → Bool)
    (s : PlayerState) (m : ServerMessage) (hm : m.interrupted = true) :
    onLiveMessage ctx dec s m =
      { s with queue := [], isPlaying := false } := by
  simp [onLiveMessage, hm]

/-- Witness for C8 on a concrete state and message. -/
theorem onmessage_interrupted_witness :
    onLiveMessage true (fun _ => true)
      { queue := ["p", "q"], isPlaying := true, active := ["r"], played := ["s"] }
      { interrupted := true, audioData := some "t" } =
      { queue := [], isPlaying := false, active := ["r"], played := ["s"] } :=
  onmessage_interrupted true (fun _ => true)
    { queue := ["p", "q"], isPlaying := true, active := ["r"], played := ["s"] }
    { interrupted := true, audioData := some "t" } rfl

end DreamAbode
